import Mathlib

set_option autoImplicit false

/-!
Shallow embedding of `src/bot.py` (himanka009/x-notify-bot): the JSON store,
the watch bookkeeping of the chat handlers, and the background tracker loop.

Python dicts are modelled as association lists over `String` keys: `alookup`
returns the value at the first matching key (as dict lookup does), `aupdate`
replaces the value in place when the key is present and appends the pair at
the end otherwise (as dict assignment does, preserving insertion order).
-/

namespace XNotifyBot

structure AccInfo where
  last_tweet_id : Option String
deriving DecidableEq, Repr

/-- One subscriber record `{"accounts": {...}, "meta": {...}}` as created by
`ensure_user`.  `meta` is written but never read by the program. -/
structure UserObj where
  accounts : List (String × AccInfo)
  meta : List (String × String)
deriving DecidableEq, Repr

/-- The whole persisted mapping `user_id -> user object` (`data.json`). -/
abbrev Store := List (String × UserObj)

/-- Dict lookup: value at the first occurrence of the key. -/
def alookup {α : Type} : List (String × α) → String → Option α
  | [], _ => none
  | (k, v) :: t, k2 => if k = k2 then some v else alookup t k2

/-- Dict assignment `d[k] = v`: replace in place, or append at the end. -/
def aupdate {α : Type} : List (String × α) → String → α → List (String × α)
  | [], k, v => [(k, v)]
  | (k2, v2) :: t, k, v => if k2 = k then (k, v) :: t else (k2, v2) :: aupdate t k v

/-- Remove a key (`dict.pop(k, None)`): drops the first occurrence. -/
def aremove {α : Type} : List (String × α) → String → List (String × α)
  | [], _ => []
  | (k, v) :: t, k2 => if k = k2 then t else (k, v) :: aremove t k2

/-- `MAX_ACCOUNTS = 5`. -/
def MAX_ACCOUNTS : Nat := 5

/-- `{"accounts": {}, "meta": {}}`. -/
def emptyUser : UserObj := ⟨[], []⟩

/-- `ensure_user(data, user_id)`: create the record if absent, return it.
A fresh dict key is appended at the end, as Python insertion order does. -/
def ensure_user (data : Store) (user_id : String) : Store × UserObj :=
  match alookup data user_id with
  | some u => (data, u)
  | none => (data ++ [(user_id, emptyUser)], emptyUser)

/-- State of the backing `data.json` file as `load_data` encounters it. -/
inductive FileState where
  | absent
  | corrupt (raw : String)
  | valid (d : Store)

/-- `load_data()`: `{}` when the file does not exist; the `try/except` around
`json.load` turns any parse failure into a logged `{}`; otherwise the parsed
mapping.  Total, hence it never raises. -/
def load_data : FileState → Store
  | .absent => []
  | .corrupt _ => []
  | .valid d => d

/-- Python `str.strip()`: drop leading and trailing whitespace.  Modelled
structurally over the character list so that it evaluates by reduction. -/
def pyStrip (s : String) : String :=
  String.mk (((s.data.dropWhile Char.isWhitespace).reverse.dropWhile
    Char.isWhitespace).reverse)

/-- `text = update.message.text.strip()` then `text.replace("@", "").strip()`
in the add flow of `handle_text`: replacing the single-character pattern
`"@"` by the empty string removes every `@`. -/
def cleanUsername (text : String) : String :=
  pyStrip (String.mk ((pyStrip text).data.filter (fun c => !(c = '@'))))

/- Reply strings of the add flow (decorative emoji bytes elided). -/

def msg_limit : String := "Limit reached!"

def msg_invalid : String := "Invalid username."

def msg_already (username : String) : String := "@" ++ username ++ " already in your list."

def msg_added (username : String) : String :=
  "Added: " ++ username ++ "\nTracker will pick up the latest tweet shortly."

def msg_max_accounts : String := "Max 5 accounts allowed."

/-- The `/add` command: `ensure_user` and `save_data`, then the capacity
check; the `Bool` is the `adding` flag it leaves in `context.user_data`. -/
def add_command (data : Store) (user_id : String) : Store × String × Bool :=
  if MAX_ACCOUNTS ≤ (ensure_user data user_id).2.accounts.length then
    ((ensure_user data user_id).1, msg_max_accounts, false)
  else
    ((ensure_user data user_id).1, "Send X username (without @):", true)

/-- The `adding` branch of `handle_text`: limit check first, then username
cleaning, then the duplicate check, and only then the insert with
`last_tweet_id = None`.  The returned store is the persisted one: the
`invalid` and `already in your list` branches return without `save_data`,
so the file keeps its previous contents there. -/
def handle_text_add (data : Store) (user_id text : String) : Store × String :=
  if MAX_ACCOUNTS ≤ (ensure_user data user_id).2.accounts.length then
    ((ensure_user data user_id).1, msg_limit)
  else if cleanUsername text = "" then (data, msg_invalid)
  else if (alookup (ensure_user data user_id).2.accounts (cleanUsername text)).isSome then
    (data, msg_already (cleanUsername text))
  else
    (aupdate (ensure_user data user_id).1 user_id
      { (ensure_user data user_id).2 with
        accounts := aupdate (ensure_user data user_id).2.accounts (cleanUsername text) ⟨none⟩ },
      msg_added (cleanUsername text))

/-- `/start`: `ensure_user` then `save_data`; returns the persisted store. -/
def start_handler (data : Store) (user_id : String) : Store :=
  (ensure_user data user_id).1

/-- `/list`: reads the accounts of the caller; never calls `save_data`, so
the persisted store component is the loaded `data` itself. -/
def list_accounts_handler (data : Store) (user_id : String) : Store × String :=
  (data,
    if (ensure_user data user_id).2.accounts.map Prod.fst = [] then "No accounts added."
    else "Your accounts:\n\n" ++
      String.intercalate "\n" ((ensure_user data user_id).2.accounts.map Prod.fst))

/-- `/stats`: distinct subscriber count and total watch count; read-only. -/
def stats_handler (data : Store) : Store × String :=
  (data,
    "Bot Stats\nTotal users: " ++ toString data.length ++
      "\nTotal accounts: " ++ toString (data.foldl (fun n p => n + p.2.accounts.length) 0))

/-- The `rem_<acc>` branch of `callback_remove`: pop the account and save if
present; otherwise reply without saving. -/
def callback_remove_handler (data : Store) (user_id acc : String) : Store × String :=
  match alookup (ensure_user data user_id).2.accounts acc with
  | some _ =>
    (aupdate (ensure_user data user_id).1 user_id
      { (ensure_user data user_id).2 with
        accounts := aremove (ensure_user data user_id).2.accounts acc },
      "Removed: " ++ acc)
  | none => (data, "Account not found or already removed.")

/-- `acc_info = user_accounts.get(username, {}); last_id = acc_info.get("last_tweet_id")`:
the cursor the tracker compares against, `none` at every missing level. -/
def storedCursor (data : Store) (user_id username : String) : Option String :=
  match alookup data user_id with
  | none => none
  | some u =>
    match alookup u.accounts username with
    | none => none
    | some acc => acc.last_tweet_id

/-- `user_accounts[username] = {"last_tweet_id": latest_id}` (mutating the
record of the user inside `data`). -/
def set_account (data : Store) (user_id username : String) (acc : AccInfo) : Store :=
  match alookup data user_id with
  | none => data
  | some u => aupdate data user_id { u with accounts := aupdate u.accounts username acc }

/-- `link = f"https://x.com/{username}/status/{latest_id}"`. -/
def tweet_link (username tweet_id : String) : String :=
  "https://x.com/" ++ username ++ "/status/" ++ tweet_id

/-- `f"New Tweet by @{username}:\n\n{latest_text or link}\n\n{link}"`; Python
`or` falls back to the link when the scraped text is empty. -/
def notif_text (username tweet_id latest_text : String) : String :=
  "New Tweet by @" ++ username ++ ":\n\n" ++
    (if latest_text = "" then tweet_link username tweet_id else latest_text) ++
    "\n\n" ++ tweet_link username tweet_id

/-- One attempted `send_message`, with the delivery outcome the code only
logs (`except: logger.exception(...)`). -/
structure Notif where
  user_id : String
  username : String
  tweet_id : String
  msg : String
  delivered : Bool
deriving DecidableEq, Repr

/-- `if user_id not in data: data[user_id] = {"accounts": {}, "meta": {}}`. -/
def ensure_entry (data : Store) (user_id : String) : Store :=
  match alookup data user_id with
  | none => data ++ [(user_id, emptyUser)]
  | some _ => data

/-- The per-subscriber body of the tracker inner loop: compare `last_id`
with `latest_id`; on a difference, attempt the notification (the delivery
result is discarded) and advance the cursor unconditionally. -/
def process_user (send : String → String → Bool) (username latest_id latest_text : String)
    (st : Store × List Notif) (user_id : String) : Store × List Notif :=
  let data := ensure_entry st.1 user_id
  if storedCursor data user_id username ≠ some latest_id then
    let msg := notif_text username latest_id latest_text
    (set_account data user_id username ⟨some latest_id⟩,
      st.2 ++ [⟨user_id, username, latest_id, msg, send user_id msg⟩])
  else
    (data, st.2)

/-- `for user_id in users_watching: ...` for one fetched target. -/
def process_target (send : String → String → Bool) (data : Store) (username : String)
    (users : List String) (latest_id latest_text : String) : Store × List Notif :=
  users.foldl (process_user send username latest_id latest_text) (data, [])

/-- `watch_map.setdefault(uname, []).append(user_id)`. -/
def insertWatch (m : List (String × List String)) (username user_id : String) :
    List (String × List String) :=
  match m with
  | [] => [(username, [user_id])]
  | (k, us) :: t =>
    if k = username then (k, us ++ [user_id]) :: t
    else (k, us) :: insertWatch t username user_id

/-- The inner loop of the watch-map build: every account of one user. -/
def addUserWatches (m : List (String × List String)) (user_id : String) (u : UserObj) :
    List (String × List String) :=
  u.accounts.foldl (fun m2 p => insertWatch m2 p.1 user_id) m

/-- `watch_map`: username -> list of user_ids tracking it. -/
def build_watch_map (data : Store) : List (String × List String) :=
  data.foldl (fun m p => addUserWatches m p.1 p.2) []

/-- Observable outcome of one tracker cycle: the final store, the attempted
notifications in order, and the trace of targets passed to the fetcher. -/
structure CycleState where
  store : Store
  notifs : List Notif
  fetched : List String
deriving Repr

/-- One target of the cycle: fetch once; on `None` skip with no mutation,
otherwise run the per-subscriber comparisons. -/
def process_entry (fetch : String → Option (String × String)) (send : String → String → Bool)
    (st : CycleState) (e : String × List String) : CycleState :=
  match fetch e.1 with
  | none => { st with fetched := st.fetched ++ [e.1] }
  | some (latest_id, latest_text) =>
    let r := process_target send st.store e.1 e.2 latest_id latest_text
    ⟨r.1, st.notifs ++ r.2, st.fetched ++ [e.1]⟩

/-- `for username, users_watching in watch_map.items(): ...`. -/
def run_entries (fetch : String → Option (String × String)) (send : String → String → Bool)
    (es : List (String × List String)) (st : CycleState) : CycleState :=
  es.foldl (process_entry fetch send) st

/-- One full iteration of the `while True` body of `tracker_loop` on loaded data:
build the watch map, then process every distinct target. -/
def tracker_cycle (fetch : String → Option (String × String)) (send : String → String → Bool)
    (data : Store) : CycleState :=
  run_entries fetch send (build_watch_map data) ⟨data, [], []⟩

/-- Notifications of the cycle addressed to `user_id` about `username`. -/
def notifCount (ns : List Notif) (user_id username : String) : Nat :=
  (ns.filter (fun n => n.user_id = user_id ∧ n.username = username)).length

/-- A subscriber currently has `k` among their account keys. -/
def hasWatchKey (data : Store) (uid k : String) : Prop :=
  ∃ u, alookup data uid = some u ∧ (alookup u.accounts k).isSome

/-- The per-subscriber watch-count bound of the store. -/
def bounded (data : Store) : Prop :=
  ∀ uid u, alookup data uid = some u → u.accounts.length ≤ MAX_ACCOUNTS

/-- `uid` is listed among the watchers of `uname` in the watch map. -/
def inWM (m : List (String × List String)) (uname uid : String) : Prop :=
  ∃ us, alookup m uname = some us ∧ uid ∈ us

/-- All subscribers a watch-map entry lists really watch that key in `d`. -/
def WMok (d : Store) (es : List (String × List String)) : Prop :=
  ∀ p ∈ es, ∀ u ∈ p.2, hasWatchKey d u p.1

/-! Concrete fixtures used by the closed evidence theorems below. -/

def seed_store : Store :=
  [("42", { accounts := [("alice", { last_tweet_id := none })], meta := [] })]

def cursor_store : Store :=
  [("42", { accounts := [("alice", { last_tweet_id := some "100" })], meta := [] })]

def iso_store : Store :=
  [("42", { accounts := [("alice", { last_tweet_id := some "100" }),
                         ("bob", { last_tweet_id := some "7" })], meta := [] })]

def full_store : Store :=
  [("7", { accounts := [("a", { last_tweet_id := some "1" }),
                        ("b", { last_tweet_id := none }),
                        ("c", { last_tweet_id := none }),
                        ("d", { last_tweet_id := none }),
                        ("alice", { last_tweet_id := some "5" })], meta := [] })]

def fetch_seed : String → Option (String × String) :=
  fun t => if t = "alice" then some ("100", "hi") else none

def fetch_next : String → Option (String × String) :=
  fun t => if t = "alice" then some ("101", "bye") else none

def fetch_iso : String → Option (String × String) :=
  fun t => if t = "bob" then some ("8", "hey") else none

def send_true : String → String → Bool := fun _ _ => true

def send_false : String → String → Bool := fun _ _ => false

/-- `{"last_tweet_id": ...}` — the per-watch record stored under an account
username; `none` models Python `None` (no baseline yet). -/

@[simp] theorem alookup_nil {α : Type} (k : String) : alookup ([] : List (String × α)) k = none := rfl

theorem alookup_cons {α : Type} (k2 : String) (v : α) (t : List (String × α)) (k : String) :
    alookup ((k2, v) :: t) k = if k2 = k then some v else alookup t k := rfl

@[simp] theorem alookup_aupdate_self {α : Type} (l : List (String × α)) (k : String) (v : α) :
    alookup (aupdate l k v) k = some v := by
  induction l with
  | nil => simp [alookup, aupdate]
  | cons p t ih =>
    obtain ⟨k2, v2⟩ := p
    by_cases h : k2 = k <;> simp [alookup, aupdate, h, ih]

theorem alookup_aupdate_ne {α : Type} (l : List (String × α)) (k k2 : String) (v : α)
    (h : k2 ≠ k) : alookup (aupdate l k v) k2 = alookup l k2 := by
  have hks : k ≠ k2 := Ne.symm h
  induction l with
  | nil => simp [alookup, aupdate, hks]
  | cons p t ih =>
    obtain ⟨k3, v3⟩ := p
    by_cases h3 : k3 = k
    · subst h3
      simp [alookup, aupdate, hks]
    · by_cases h2 : k3 = k2 <;> simp [alookup, aupdate, h3, h2, h, ih]

theorem keys_aupdate_of_mem {α : Type} (l : List (String × α)) (k : String) (v : α)
    (h : (alookup l k).isSome) : (aupdate l k v).map Prod.fst = l.map Prod.fst := by
  induction l with
  | nil => simp [alookup] at h
  | cons p t ih =>
    obtain ⟨k2, v2⟩ := p
    by_cases h2 : k2 = k
    · simp [aupdate, h2]
    · simp only [alookup, h2, if_false] at h
      simp [aupdate, h2, ih h]

theorem keys_aupdate_of_none {α : Type} (l : List (String × α)) (k : String) (v : α)
    (h : alookup l k = none) : (aupdate l k v).map Prod.fst = l.map Prod.fst ++ [k] := by
  induction l with
  | nil => simp [aupdate]
  | cons p t ih =>
    obtain ⟨k2, v2⟩ := p
    by_cases h2 : k2 = k
    · simp [alookup, h2] at h
    · simp only [alookup, h2, if_false] at h
      simp [aupdate, h2, ih h]

theorem length_aupdate_of_mem {α : Type} (l : List (String × α)) (k : String) (v : α)
    (h : (alookup l k).isSome) : (aupdate l k v).length = l.length := by
  have := keys_aupdate_of_mem l k v h
  have h1 : ((aupdate l k v).map Prod.fst).length = (l.map Prod.fst).length := by rw [this]
  simpa using h1

theorem isSome_alookup_aupdate {α : Type} (l : List (String × α)) (k k2 : String) (v : α)
    (h : (alookup l k2).isSome) : (alookup (aupdate l k v) k2).isSome := by
  by_cases hk : k2 = k
  · subst hk; simp
  · rw [alookup_aupdate_ne l k k2 v hk]; exact h

theorem alookup_append_left {α : Type} (l m : List (String × α)) (k : String) (v : α)
    (h : alookup l k = some v) : alookup (l ++ m) k = some v := by
  induction l with
  | nil => simp [alookup] at h
  | cons p t ih =>
    obtain ⟨k2, v2⟩ := p
    by_cases h2 : k2 = k <;> simp_all [alookup]

theorem alookup_append_right {α : Type} (l m : List (String × α)) (k : String)
    (h : alookup l k = none) : alookup (l ++ m) k = alookup m k := by
  induction l with
  | nil => simp
  | cons p t ih =>
    obtain ⟨k2, v2⟩ := p
    by_cases h2 : k2 = k <;> simp_all [alookup]

theorem mem_of_alookup {α : Type} (l : List (String × α)) (k : String) (v : α)
    (h : alookup l k = some v) : (k, v) ∈ l := by
  induction l with
  | nil => simp [alookup] at h
  | cons p t ih =>
    obtain ⟨k2, v2⟩ := p
    by_cases h2 : k2 = k
    · subst h2
      simp [alookup] at h
      simp [h]
    · simp only [alookup, h2, if_false] at h
      exact List.mem_cons_of_mem _ (ih h)

theorem isSome_alookup_of_mem {α : Type} (l : List (String × α)) (k : String) (v : α)
    (h : (k, v) ∈ l) : (alookup l k).isSome := by
  induction l with
  | nil => simp at h
  | cons p t ih =>
    obtain ⟨k2, v2⟩ := p
    rcases List.mem_cons.mp h with h1 | h1
    · obtain ⟨rfl, rfl⟩ := Prod.mk.injEq .. ▸ h1
      simp [alookup]
    · by_cases h2 : k2 = k <;> simp [alookup, h2, ih h1]

theorem alookup_of_mem_nodup {α : Type} (l : List (String × α)) (k : String) (v : α)
    (hn : (l.map Prod.fst).Nodup) (h : (k, v) ∈ l) : alookup l k = some v := by
  induction l with
  | nil => simp at h
  | cons p t ih =>
    obtain ⟨k2, v2⟩ := p
    simp only [List.map_cons, List.nodup_cons] at hn
    rcases List.mem_cons.mp h with h1 | h1
    · obtain ⟨rfl, rfl⟩ := Prod.mk.injEq .. ▸ h1
      simp [alookup]
    · have hne : k2 ≠ k := by
        rintro rfl
        exact hn.1 (List.mem_map.mpr ⟨(k2, v), h1, rfl⟩)
      simp [alookup, hne, ih hn.2 h1]

/-! Generic fold invariant, used for the many left folds of the tracker. -/

theorem foldl_invariant {α β : Type} (P : α → Prop) (f : α → β → α)
    (h : ∀ a b, P a → P (f a b)) : ∀ (l : List β) (a : α), P a → P (List.foldl f a l) := by
  intro l
  induction l with
  | nil => intro a ha; exact ha
  | cons b t ih => intro a ha; exact ih (f a b) (h a b ha)

theorem notifCount_append (ns ms : List Notif) (user_id username : String) :
    notifCount (ns ++ ms) user_id username =
      notifCount ns user_id username + notifCount ms user_id username := by
  simp [notifCount, List.filter_append]

/-! Lemmas about `ensure_entry`, `ensure_user` and `set_account`. -/

theorem alookup_ensure_entry_of_some (data : Store) (uid uid2 : String) (u : UserObj)
    (h : alookup data uid2 = some u) : alookup (ensure_entry data uid) uid2 = some u := by
  unfold ensure_entry
  cases hx : alookup data uid with
  | none => exact alookup_append_left _ _ _ _ h
  | some _ => exact h

theorem isSome_alookup_ensure_entry (data : Store) (uid : String) :
    (alookup (ensure_entry data uid) uid).isSome := by
  unfold ensure_entry
  cases hx : alookup data uid with
  | none =>
    rw [alookup_append_right _ _ _ hx]
    simp [alookup]
  | some u => simp [hx]

theorem storedCursor_ensure_entry (data : Store) (uid uid2 uname : String) :
    storedCursor (ensure_entry data uid) uid2 uname = storedCursor data uid2 uname := by
  unfold ensure_entry
  cases hx : alookup data uid with
  | some u => rfl
  | none =>
    unfold storedCursor
    cases hy : alookup data uid2 with
    | some u2 => rw [alookup_append_left _ _ _ _ hy]
    | none =>
      rw [alookup_append_right _ _ _ hy]
      by_cases he : uid = uid2
      · subst he
        simp [alookup, emptyUser]
      · simp [alookup, he]

theorem storedCursor_set_account_self (data : Store) (uid uname : String) (acc : AccInfo)
    (h : (alookup data uid).isSome) :
    storedCursor (set_account data uid uname acc) uid uname = acc.last_tweet_id := by
  unfold set_account
  cases hx : alookup data uid with
  | none => rw [hx] at h; simp at h
  | some u => simp [storedCursor]

theorem storedCursor_set_account_user_ne (data : Store) (uid uname uid2 uname2 : String)
    (acc : AccInfo) (h : uid2 ≠ uid) :
    storedCursor (set_account data uid uname acc) uid2 uname2 =
      storedCursor data uid2 uname2 := by
  unfold set_account
  cases hx : alookup data uid with
  | none => rfl
  | some u => unfold storedCursor; rw [alookup_aupdate_ne _ _ _ _ h]

theorem storedCursor_set_account_acct_ne (data : Store) (uid uname uid2 uname2 : String)
    (acc : AccInfo) (h : uname2 ≠ uname) :
    storedCursor (set_account data uid uname acc) uid2 uname2 =
      storedCursor data uid2 uname2 := by
  by_cases hu : uid2 = uid
  · subst hu
    unfold set_account
    cases hx : alookup data uid2 with
    | none => rfl
    | some u =>
      simp only [storedCursor, alookup_aupdate_self, hx, alookup_aupdate_ne _ _ _ _ h]
  · exact storedCursor_set_account_user_ne data uid uname uid2 uname2 acc hu

theorem hasWatchKey_ensure_entry (data : Store) (uid uid2 k : String)
    (h : hasWatchKey data uid2 k) : hasWatchKey (ensure_entry data uid) uid2 k := by
  obtain ⟨u, hu, hk⟩ := h
  exact ⟨u, alookup_ensure_entry_of_some data uid uid2 u hu, hk⟩

theorem hasWatchKey_set_account (data : Store) (uid uname uid2 k : String) (acc : AccInfo)
    (h : hasWatchKey data uid2 k) : hasWatchKey (set_account data uid uname acc) uid2 k := by
  obtain ⟨u, hu, hk⟩ := h
  unfold set_account
  cases hx : alookup data uid with
  | none => exact ⟨u, hu, hk⟩
  | some u0 =>
    by_cases he : uid2 = uid
    · subst he
      rw [hx] at hu
      cases hu
      exact ⟨_, alookup_aupdate_self _ _ _, isSome_alookup_aupdate _ _ _ _ hk⟩
    · exact ⟨u, by rw [alookup_aupdate_ne _ _ _ _ he]; exact hu, hk⟩

theorem alookup_append_cases {α : Type} (l m : List (String × α)) (k : String) (v : α)
    (h : alookup (l ++ m) k = some v) : alookup l k = some v ∨ alookup m k = some v := by
  cases hx : alookup l k with
  | some w => rw [alookup_append_left _ _ _ _ hx] at h; exact Or.inl h
  | none => rw [alookup_append_right _ _ _ hx] at h; exact Or.inr h

theorem bounded_ensure_entry (data : Store) (uid : String) (h : bounded data) :
    bounded (ensure_entry data uid) := by
  unfold ensure_entry
  cases hx : alookup data uid with
  | some u => exact h
  | none =>
    intro uid2 u2 h2
    rcases alookup_append_cases _ _ _ _ h2 with h3 | h3
    · exact h uid2 u2 h3
    · unfold alookup at h3
      by_cases he : uid = uid2
      · simp only [he, if_pos rfl] at h3
        cases h3
        simp [emptyUser, MAX_ACCOUNTS]
      · simp [he, alookup] at h3

theorem bounded_set_account (data : Store) (uid uname : String) (acc : AccInfo)
    (hb : bounded data) (hw : hasWatchKey data uid uname) :
    bounded (set_account data uid uname acc) := by
  obtain ⟨u, hu, hk⟩ := hw
  unfold set_account
  rw [hu]
  intro uid2 u2 h2
  by_cases he : uid2 = uid
  · subst he
    rw [alookup_aupdate_self] at h2
    cases h2
    simpa [length_aupdate_of_mem _ _ _ hk] using hb uid2 u hu
  · rw [alookup_aupdate_ne _ _ _ _ he] at h2
    exact hb uid2 u2 h2

/-! Lemmas about `process_user`: the two branches, the cursor it leaves,
frame properties, counting, and preservation of the store invariants. -/

theorem process_user_hit (send : String → String → Bool) (uname lid lt : String)
    (st : Store × List Notif) (uid : String)
    (h : storedCursor st.1 uid uname = some lid) :
    process_user send uname lid lt st uid = (ensure_entry st.1 uid, st.2) := by
  simp only [process_user]
  rw [storedCursor_ensure_entry st.1 uid uid uname]
  simp [h]

theorem process_user_miss (send : String → String → Bool) (uname lid lt : String)
    (st : Store × List Notif) (uid : String)
    (h : storedCursor st.1 uid uname ≠ some lid) :
    process_user send uname lid lt st uid =
      (set_account (ensure_entry st.1 uid) uid uname ⟨some lid⟩,
        st.2 ++ [⟨uid, uname, lid, notif_text uname lid lt,
          send uid (notif_text uname lid lt)⟩]) := by
  simp only [process_user]
  rw [storedCursor_ensure_entry st.1 uid uid uname]
  simp [h]

theorem process_user_cursor_self (send : String → String → Bool) (uname lid lt : String)
    (st : Store × List Notif) (uid : String) :
    storedCursor (process_user send uname lid lt st uid).1 uid uname = some lid := by
  by_cases h : storedCursor st.1 uid uname = some lid
  · rw [process_user_hit send uname lid lt st uid h]
    rw [storedCursor_ensure_entry st.1 uid uid uname]
    exact h
  · rw [process_user_miss send uname lid lt st uid h]
    exact storedCursor_set_account_self _ _ _ _ (isSome_alookup_ensure_entry st.1 uid)

theorem process_user_frame_user (send : String → String → Bool) (uname lid lt : String)
    (st : Store × List Notif) (uid uid2 uname2 : String) (h : uid2 ≠ uid) :
    storedCursor (process_user send uname lid lt st uid).1 uid2 uname2 =
      storedCursor st.1 uid2 uname2 := by
  by_cases hc : storedCursor st.1 uid uname = some lid
  · rw [process_user_hit send uname lid lt st uid hc]
    exact storedCursor_ensure_entry st.1 uid uid2 uname2
  · rw [process_user_miss send uname lid lt st uid hc]
    rw [storedCursor_set_account_user_ne _ _ _ _ _ _ h]
    exact storedCursor_ensure_entry st.1 uid uid2 uname2

theorem process_user_frame_acct (send : String → String → Bool) (uname lid lt : String)
    (st : Store × List Notif) (uid uid2 uname2 : String) (h : uname2 ≠ uname) :
    storedCursor (process_user send uname lid lt st uid).1 uid2 uname2 =
      storedCursor st.1 uid2 uname2 := by
  by_cases hc : storedCursor st.1 uid uname = some lid
  · rw [process_user_hit send uname lid lt st uid hc]
    exact storedCursor_ensure_entry st.1 uid uid2 uname2
  · rw [process_user_miss send uname lid lt st uid hc]
    rw [storedCursor_set_account_acct_ne _ _ _ _ _ _ h]
    exact storedCursor_ensure_entry st.1 uid uid2 uname2

theorem process_user_notifs (send : String → String → Bool) (uname lid lt : String)
    (st : Store × List Notif) (uid : String) :
    (process_user send uname lid lt st uid).2 = st.2 ∨
      (process_user send uname lid lt st uid).2 =
        st.2 ++ [⟨uid, uname, lid, notif_text uname lid lt,
          send uid (notif_text uname lid lt)⟩] := by
  by_cases hc : storedCursor st.1 uid uname = some lid
  · rw [process_user_hit send uname lid lt st uid hc]; exact Or.inl rfl
  · rw [process_user_miss send uname lid lt st uid hc]; exact Or.inr rfl

theorem process_user_count_user_ne (send : String → String → Bool) (uname lid lt : String)
    (st : Store × List Notif) (uid uid2 x : String) (h : uid2 ≠ uid) :
    notifCount (process_user send uname lid lt st uid).2 uid2 x =
      notifCount st.2 uid2 x := by
  rcases process_user_notifs send uname lid lt st uid with h2 | h2 <;> rw [h2]
  rw [notifCount_append]
  simp [notifCount, Ne.symm h]

theorem process_user_count_acct_ne (send : String → String → Bool) (uname lid lt : String)
    (st : Store × List Notif) (uid uid2 x : String) (h : x ≠ uname) :
    notifCount (process_user send uname lid lt st uid).2 uid2 x =
      notifCount st.2 uid2 x := by
  rcases process_user_notifs send uname lid lt st uid with h2 | h2 <;> rw [h2]
  rw [notifCount_append]
  simp [notifCount, Ne.symm h]

theorem process_user_count_miss (send : String → String → Bool) (uname lid lt : String)
    (st : Store × List Notif) (uid : String)
    (h : storedCursor st.1 uid uname ≠ some lid) :
    notifCount (process_user send uname lid lt st uid).2 uid uname =
      notifCount st.2 uid uname + 1 := by
  rw [process_user_miss send uname lid lt st uid h, notifCount_append]
  simp [notifCount]

theorem process_user_mem (send : String → String → Bool) (uname lid lt : String)
    (st : Store × List Notif) (uid : String) (n : Notif)
    (h : n ∈ (process_user send uname lid lt st uid).2) :
    n ∈ st.2 ∨ (n.username = uname ∧ n.tweet_id = lid ∧ n.msg = notif_text uname lid lt) := by
  rcases process_user_notifs send uname lid lt st uid with h2 | h2 <;> rw [h2] at h
  · exact Or.inl h
  · rcases List.mem_append.mp h with h3 | h3
    · exact Or.inl h3
    · simp at h3
      subst h3
      exact Or.inr ⟨rfl, rfl, rfl⟩

theorem process_user_mono (send : String → String → Bool) (uname lid lt : String)
    (st : Store × List Notif) (uid uid2 k : String) (h : hasWatchKey st.1 uid2 k) :
    hasWatchKey (process_user send uname lid lt st uid).1 uid2 k := by
  by_cases hc : storedCursor st.1 uid uname = some lid
  · rw [process_user_hit send uname lid lt st uid hc]
    exact hasWatchKey_ensure_entry _ _ _ _ h
  · rw [process_user_miss send uname lid lt st uid hc]
    exact hasWatchKey_set_account _ _ _ _ _ _ (hasWatchKey_ensure_entry _ _ _ _ h)

theorem process_user_bounded (send : String → String → Bool) (uname lid lt : String)
    (st : Store × List Notif) (uid : String) (hb : bounded st.1)
    (hw : hasWatchKey st.1 uid uname) :
    bounded (process_user send uname lid lt st uid).1 := by
  by_cases hc : storedCursor st.1 uid uname = some lid
  · rw [process_user_hit send uname lid lt st uid hc]
    exact bounded_ensure_entry _ _ hb
  · rw [process_user_miss send uname lid lt st uid hc]
    exact bounded_set_account _ _ _ _ (bounded_ensure_entry _ _ hb)
      (hasWatchKey_ensure_entry _ _ _ _ hw)

/-! Lemmas about the fold of `process_user` over the subscribers of one
target (`process_target` starts it from `(data, [])`). -/

theorem target_fold_inv (send : String → String → Bool) (uname lid lt uid : String) :
    ∀ (users : List String) (st : Store × List Notif),
      storedCursor st.1 uid uname = some lid →
      storedCursor (users.foldl (process_user send uname lid lt) st).1 uid uname = some lid ∧
        notifCount (users.foldl (process_user send uname lid lt) st).2 uid uname =
          notifCount st.2 uid uname := by
  intro users
  induction users with
  | nil => intro st h; exact ⟨h, rfl⟩
  | cons u us ih =>
    intro st h
    simp only [List.foldl_cons]
    by_cases he : u = uid
    · subst he
      rw [process_user_hit send uname lid lt st u h]
      exact ih (ensure_entry st.1 u, st.2) (by simpa [storedCursor_ensure_entry] using h)
    · have hne : uid ≠ u := Ne.symm he
      have h2 : storedCursor (process_user send uname lid lt st u).1 uid uname = some lid := by
        rw [process_user_frame_user send uname lid lt st u uid uname hne]; exact h
      have := ih (process_user send uname lid lt st u) h2
      rwa [process_user_count_user_ne send uname lid lt st u uid uname hne] at this

theorem target_fold_notify (send : String → String → Bool) (uname lid lt uid : String) :
    ∀ (users : List String) (st : Store × List Notif),
      uid ∈ users →
      storedCursor st.1 uid uname ≠ some lid →
      storedCursor (users.foldl (process_user send uname lid lt) st).1 uid uname = some lid ∧
        notifCount (users.foldl (process_user send uname lid lt) st).2 uid uname =
          notifCount st.2 uid uname + 1 := by
  intro users
  induction users with
  | nil => intro st h; simp at h
  | cons u us ih =>
    intro st hm h
    simp only [List.foldl_cons]
    by_cases he : u = uid
    · subst he
      have hcur := process_user_cursor_self send uname lid lt st u
      have hcount := process_user_count_miss send uname lid lt st u h
      have := target_fold_inv send uname lid lt u us (process_user send uname lid lt st u) hcur
      exact ⟨this.1, by rw [this.2, hcount]⟩
    · have hne : uid ≠ u := Ne.symm he
      have hm2 : uid ∈ us := by
        rcases List.mem_cons.mp hm with h2 | h2
        · exact absurd h2 hne
        · exact h2
      have h2 : storedCursor (process_user send uname lid lt st u).1 uid uname ≠ some lid := by
        rw [process_user_frame_user send uname lid lt st u uid uname hne]; exact h
      have := ih (process_user send uname lid lt st u) hm2 h2
      rwa [process_user_count_user_ne send uname lid lt st u uid uname hne] at this

theorem target_fold_frame_acct (send : String → String → Bool) (uname lid lt : String)
    (uid2 uname2 : String) (h : uname2 ≠ uname) (users : List String)
    (st : Store × List Notif) :
    storedCursor (users.foldl (process_user send uname lid lt) st).1 uid2 uname2 =
      storedCursor st.1 uid2 uname2 := by
  exact foldl_invariant
    (fun s => storedCursor s.1 uid2 uname2 = storedCursor st.1 uid2 uname2)
    (process_user send uname lid lt)
    (fun s u hs => by
      show storedCursor (process_user send uname lid lt s u).1 uid2 uname2 =
        storedCursor st.1 uid2 uname2
      rw [process_user_frame_acct send uname lid lt s u uid2 uname2 h]
      exact hs)
    users st rfl

theorem target_fold_count_acct_ne (send : String → String → Bool) (uname lid lt : String)
    (uid2 x : String) (h : x ≠ uname) (users : List String) (st : Store × List Notif) :
    notifCount (users.foldl (process_user send uname lid lt) st).2 uid2 x =
      notifCount st.2 uid2 x := by
  exact foldl_invariant
    (fun s => notifCount s.2 uid2 x = notifCount st.2 uid2 x)
    (process_user send uname lid lt)
    (fun s u hs => by
      show notifCount (process_user send uname lid lt s u).2 uid2 x = notifCount st.2 uid2 x
      rw [process_user_count_acct_ne send uname lid lt s u uid2 x h]
      exact hs)
    users st rfl

theorem target_fold_mem (send : String → String → Bool) (uname lid lt : String)
    (users : List String) (st : Store × List Notif) (n : Notif)
    (h : n ∈ (users.foldl (process_user send uname lid lt) st).2) :
    n ∈ st.2 ∨ (n.username = uname ∧ n.tweet_id = lid ∧ n.msg = notif_text uname lid lt) := by
  refine foldl_invariant
    (fun s => ∀ m : Notif, m ∈ s.2 →
      m ∈ st.2 ∨ (m.username = uname ∧ m.tweet_id = lid ∧ m.msg = notif_text uname lid lt))
    (process_user send uname lid lt)
    (fun s u hs m hm => ?_) users st (fun m hm => Or.inl hm) n h
  rcases process_user_mem send uname lid lt s u m hm with h2 | h2
  · exact hs m h2
  · exact Or.inr h2

theorem target_fold_mono (send : String → String → Bool) (uname lid lt : String)
    (uid2 k : String) (users : List String) (st : Store × List Notif)
    (h : hasWatchKey st.1 uid2 k) :
    hasWatchKey (users.foldl (process_user send uname lid lt) st).1 uid2 k := by
  exact foldl_invariant (fun s => hasWatchKey s.1 uid2 k)
    (process_user send uname lid lt)
    (fun s u hs => process_user_mono send uname lid lt s u uid2 k hs)
    users st h

theorem target_fold_bounded (send : String → String → Bool) (uname lid lt : String) :
    ∀ (users : List String) (st : Store × List Notif),
      bounded st.1 → (∀ u ∈ users, hasWatchKey st.1 u uname) →
      bounded (users.foldl (process_user send uname lid lt) st).1 := by
  intro users
  induction users with
  | nil => intro st hb _; exact hb
  | cons u us ih =>
    intro st hb hw
    simp only [List.foldl_cons]
    refine ih (process_user send uname lid lt st u) ?_ ?_
    · exact process_user_bounded send uname lid lt st u hb (hw u (List.mem_cons_self u us))
    · intro u2 hu2
      exact process_user_mono send uname lid lt st u u2 uname
        (hw u2 (List.mem_cons_of_mem u hu2))

/-! Lemmas about `process_entry` and `run_entries`: what one target of the
cycle does, and what the whole cycle does. -/

theorem process_entry_fetch_none (fetch : String → Option (String × String))
    (send : String → String → Bool) (st : CycleState) (e : String × List String)
    (h : fetch e.1 = none) :
    process_entry fetch send st e = { st with fetched := st.fetched ++ [e.1] } := by
  unfold process_entry
  rw [h]

theorem process_entry_fetch_some (fetch : String → Option (String × String))
    (send : String → String → Bool) (st : CycleState) (e : String × List String)
    (lid lt : String) (h : fetch e.1 = some (lid, lt)) :
    process_entry fetch send st e =
      ⟨(e.2.foldl (process_user send e.1 lid lt) (st.store, [])).1,
        st.notifs ++ (e.2.foldl (process_user send e.1 lid lt) (st.store, [])).2,
        st.fetched ++ [e.1]⟩ := by
  unfold process_entry
  rw [h]
  rfl

theorem process_entry_other (fetch : String → Option (String × String))
    (send : String → String → Bool) (st : CycleState) (e : String × List String)
    (uname uid2 : String) (h : e.1 ≠ uname) :
    storedCursor (process_entry fetch send st e).store uid2 uname =
        storedCursor st.store uid2 uname ∧
      notifCount (process_entry fetch send st e).notifs uid2 uname =
        notifCount st.notifs uid2 uname := by
  cases hx : fetch e.1 with
  | none => rw [process_entry_fetch_none fetch send st e hx]; exact ⟨rfl, rfl⟩
  | some p =>
    obtain ⟨lid, lt⟩ := p
    rw [process_entry_fetch_some fetch send st e lid lt hx]
    constructor
    · exact target_fold_frame_acct send e.1 lid lt uid2 uname (Ne.symm h) e.2 (st.store, [])
    · rw [notifCount_append,
        target_fold_count_acct_ne send e.1 lid lt uid2 uname (Ne.symm h) e.2 (st.store, [])]
      rfl

theorem run_entries_cons (fetch : String → Option (String × String))
    (send : String → String → Bool) (e : String × List String)
    (t : List (String × List String)) (st : CycleState) :
    run_entries fetch send (e :: t) st =
      run_entries fetch send t (process_entry fetch send st e) := rfl

theorem run_entries_fetched (fetch : String → Option (String × String))
    (send : String → String → Bool) :
    ∀ (es : List (String × List String)) (st : CycleState),
      (run_entries fetch send es st).fetched = st.fetched ++ es.map Prod.fst := by
  intro es
  induction es with
  | nil => intro st; simp [run_entries]
  | cons e t ih =>
    intro st
    rw [run_entries_cons, ih]
    have hfe : (process_entry fetch send st e).fetched = st.fetched ++ [e.1] := by
      cases hx : fetch e.1 with
      | none => rw [process_entry_fetch_none fetch send st e hx]
      | some p =>
        obtain ⟨lid, lt⟩ := p
        rw [process_entry_fetch_some fetch send st e lid lt hx]
    rw [hfe]
    simp

theorem run_entries_nokey (fetch : String → Option (String × String))
    (send : String → String → Bool) (uname : String) :
    ∀ (es : List (String × List String)) (st : CycleState),
      uname ∉ es.map Prod.fst → ∀ uid2,
      storedCursor (run_entries fetch send es st).store uid2 uname =
          storedCursor st.store uid2 uname ∧
        notifCount (run_entries fetch send es st).notifs uid2 uname =
          notifCount st.notifs uid2 uname := by
  intro es
  induction es with
  | nil => intro st _ uid2; exact ⟨rfl, rfl⟩
  | cons e t ih =>
    intro st hn uid2
    simp only [List.map_cons, List.mem_cons, not_or] at hn
    have hne : e.1 ≠ uname := fun hh => hn.1 hh.symm
    have hstep := process_entry_other fetch send st e uname uid2 hne
    have h2 := ih (process_entry fetch send st e) (by simpa using hn.2) uid2
    rw [run_entries_cons]
    exact ⟨by rw [h2.1, hstep.1], by rw [h2.2, hstep.2]⟩

theorem run_entries_hit (fetch : String → Option (String × String))
    (send : String → String → Bool) (uname lid lt uid : String)
    (hf : fetch uname = some (lid, lt)) :
    ∀ (es : List (String × List String)) (st : CycleState),
      storedCursor st.store uid uname = some lid →
      storedCursor (run_entries fetch send es st).store uid uname = some lid ∧
        notifCount (run_entries fetch send es st).notifs uid uname =
          notifCount st.notifs uid uname := by
  intro es
  induction es with
  | nil => intro st h; exact ⟨h, rfl⟩
  | cons e t ih =>
    intro st h
    obtain ⟨k, us⟩ := e
    rw [run_entries_cons]
    by_cases he : k = uname
    · subst he
      have hfe : fetch (k, us).1 = some (lid, lt) := hf
      rw [process_entry_fetch_some fetch send st (k, us) lid lt hfe]
      have hpt := target_fold_inv send k lid lt uid us (st.store, []) h
      have h3 := ih ⟨(us.foldl (process_user send k lid lt) (st.store, [])).1,
        st.notifs ++ (us.foldl (process_user send k lid lt) (st.store, [])).2,
        st.fetched ++ [k]⟩ hpt.1
      refine ⟨h3.1, ?_⟩
      rw [h3.2]
      show notifCount (st.notifs ++ _) uid k = _
      rw [notifCount_append, hpt.2]
      rfl
    · have hstep := process_entry_other fetch send st (k, us) uname uid he
      have h3 := ih (process_entry fetch send st (k, us)) (by rw [hstep.1]; exact h)
      exact ⟨h3.1, by rw [h3.2, hstep.2]⟩

theorem run_entries_unavailable (fetch : String → Option (String × String))
    (send : String → String → Bool) (uname : String) (hf : fetch uname = none) :
    ∀ (es : List (String × List String)) (st : CycleState) (uid2 : String),
      storedCursor (run_entries fetch send es st).store uid2 uname =
          storedCursor st.store uid2 uname ∧
        notifCount (run_entries fetch send es st).notifs uid2 uname =
          notifCount st.notifs uid2 uname := by
  intro es
  induction es with
  | nil => intro st uid2; exact ⟨rfl, rfl⟩
  | cons e t ih =>
    intro st uid2
    obtain ⟨k, us⟩ := e
    rw [run_entries_cons]
    by_cases he : k = uname
    · subst he
      have hfe : fetch (k, us).1 = none := hf
      rw [process_entry_fetch_none fetch send st (k, us) hfe]
      exact ih { st with fetched := st.fetched ++ [(k, us).1] } uid2
    · have hstep := process_entry_other fetch send st (k, us) uname uid2 he
      have h3 := ih (process_entry fetch send st (k, us)) uid2
      exact ⟨by rw [h3.1, hstep.1], by rw [h3.2, hstep.2]⟩

theorem run_entries_notify (fetch : String → Option (String × String))
    (send : String → String → Bool) (uname lid lt uid : String)
    (users : List String) (hf : fetch uname = some (lid, lt)) :
    ∀ (es : List (String × List String)) (st : CycleState),
      (es.map Prod.fst).Nodup → (uname, users) ∈ es → uid ∈ users →
      storedCursor st.store uid uname ≠ some lid →
      storedCursor (run_entries fetch send es st).store uid uname = some lid ∧
        notifCount (run_entries fetch send es st).notifs uid uname =
          notifCount st.notifs uid uname + 1 := by
  intro es
  induction es with
  | nil => intro st _ hm; simp at hm
  | cons e t ih =>
    intro st hnd hm hu hc
    obtain ⟨k, us⟩ := e
    simp only [List.map_cons, List.nodup_cons] at hnd
    rw [run_entries_cons]
    by_cases he : k = uname
    · subst he
      have hkey : k ∉ t.map Prod.fst := hnd.1
      have huse : us = users := by
        rcases List.mem_cons.mp hm with h1 | h1
        · exact (congrArg Prod.snd h1).symm
        · exact absurd (List.mem_map.mpr ⟨(k, users), h1, rfl⟩) hkey
      subst huse
      have hfe : fetch (k, us).1 = some (lid, lt) := hf
      rw [process_entry_fetch_some fetch send st (k, us) lid lt hfe]
      have hpt := target_fold_notify send k lid lt uid us (st.store, []) hu hc
      have hrest := run_entries_nokey fetch send k t
        ⟨(us.foldl (process_user send k lid lt) (st.store, [])).1,
          st.notifs ++ (us.foldl (process_user send k lid lt) (st.store, [])).2,
          st.fetched ++ [k]⟩ hkey uid
      refine ⟨by rw [hrest.1]; exact hpt.1, ?_⟩
      rw [hrest.2]
      show notifCount (st.notifs ++ _) uid k = _
      rw [notifCount_append, hpt.2]
      rfl
    · have hm2 : (uname, users) ∈ t := by
        rcases List.mem_cons.mp hm with h1 | h1
        · exact absurd (congrArg Prod.fst h1.symm) he
        · exact h1
      have hstep := process_entry_other fetch send st (k, us) uname uid he
      have h3 := ih (process_entry fetch send st (k, us)) hnd.2 hm2 hu
        (by rw [hstep.1]; exact hc)
      exact ⟨h3.1, by rw [h3.2, hstep.2]⟩

theorem run_entries_mem (fetch : String → Option (String × String))
    (send : String → String → Bool) :
    ∀ (es : List (String × List String)) (st : CycleState) (n : Notif),
      n ∈ (run_entries fetch send es st).notifs →
      n ∈ st.notifs ∨ ∃ lt2, n.msg = notif_text n.username n.tweet_id lt2 := by
  intro es
  induction es with
  | nil => intro st n h; exact Or.inl h
  | cons e t ih =>
    intro st n h
    rw [run_entries_cons] at h
    rcases ih (process_entry fetch send st e) n h with h1 | h1
    · cases hx : fetch e.1 with
      | none =>
        rw [process_entry_fetch_none fetch send st e hx] at h1
        exact Or.inl h1
      | some p =>
        obtain ⟨lid, lt⟩ := p
        rw [process_entry_fetch_some fetch send st e lid lt hx] at h1
        rcases List.mem_append.mp h1 with h2 | h2
        · exact Or.inl h2
        · rcases target_fold_mem send e.1 lid lt e.2 (st.store, []) n h2 with h3 | h3
          · simp at h3
          · obtain ⟨hun, hid, hmsg⟩ := h3
            exact Or.inr ⟨lt, by rw [hmsg, hun, hid]⟩
    · exact Or.inr h1

/-! Lemmas about `insertWatch`, `addUserWatches` and `build_watch_map`. -/

theorem alookup_insertWatch_self (m : List (String × List String)) (uname uid : String) :
    alookup (insertWatch m uname uid) uname = some ((alookup m uname).getD [] ++ [uid]) := by
  induction m with
  | nil => simp [insertWatch, alookup]
  | cons p t ih =>
    obtain ⟨k, us⟩ := p
    by_cases h : k = uname <;> simp [insertWatch, alookup, h, ih]

theorem alookup_insertWatch_ne (m : List (String × List String)) (uname uid k : String)
    (h : k ≠ uname) : alookup (insertWatch m uname uid) k = alookup m k := by
  induction m with
  | nil => simp [insertWatch, alookup, Ne.symm h]
  | cons p t ih =>
    obtain ⟨k2, us⟩ := p
    by_cases h2 : k2 = uname
    · subst h2
      simp [insertWatch, alookup, Ne.symm h]
    · by_cases h3 : k2 = k <;> simp [insertWatch, alookup, h2, h3, h, ih]

theorem keys_insertWatch (m : List (String × List String)) (uname uid : String) :
    (insertWatch m uname uid).map Prod.fst =
      if uname ∈ m.map Prod.fst then m.map Prod.fst else m.map Prod.fst ++ [uname] := by
  induction m with
  | nil => simp [insertWatch]
  | cons p t ih =>
    obtain ⟨k, us⟩ := p
    by_cases h : k = uname
    · simp [insertWatch, h]
    · by_cases h2 : uname ∈ t.map Prod.fst <;>
        simp [insertWatch, h, Ne.symm h, h2, ih]

theorem nodup_keys_insertWatch (m : List (String × List String)) (uname uid : String)
    (h : (m.map Prod.fst).Nodup) : ((insertWatch m uname uid).map Prod.fst).Nodup := by
  rw [keys_insertWatch]
  by_cases h2 : uname ∈ m.map Prod.fst
  · simpa [h2] using h
  · simp [h2, List.nodup_append, h]

theorem inWM_insertWatch_self (m : List (String × List String)) (uname uid : String) :
    inWM (insertWatch m uname uid) uname uid :=
  ⟨(alookup m uname).getD [] ++ [uid], alookup_insertWatch_self m uname uid,
    List.mem_append.mpr (Or.inr (List.mem_singleton.mpr rfl))⟩

theorem inWM_insertWatch_mono (m : List (String × List String)) (uname uid k i : String)
    (h : inWM m k i) : inWM (insertWatch m uname uid) k i := by
  obtain ⟨us, hus, hi⟩ := h
  by_cases h2 : k = uname
  · subst h2
    refine ⟨(alookup m k).getD [] ++ [uid], alookup_insertWatch_self m k uid, ?_⟩
    rw [hus]
    exact List.mem_append.mpr (Or.inl hi)
  · exact ⟨us, by rw [alookup_insertWatch_ne m uname uid k h2]; exact hus, hi⟩

theorem inWM_insertWatch_cases (m : List (String × List String)) (uname uid k i : String)
    (h : inWM (insertWatch m uname uid) k i) : inWM m k i ∨ (k = uname ∧ i = uid) := by
  obtain ⟨us, hus, hi⟩ := h
  by_cases h2 : k = uname
  · subst h2
    rw [alookup_insertWatch_self m k uid] at hus
    cases hus
    rcases List.mem_append.mp hi with h3 | h3
    · cases hx : alookup m k with
      | none => rw [hx] at h3; simp at h3
      | some us0 =>
        rw [hx] at h3
        exact Or.inl ⟨us0, hx, by simpa using h3⟩
    · exact Or.inr ⟨rfl, by simpa using h3⟩
  · rw [alookup_insertWatch_ne m uname uid k h2] at hus
    exact Or.inl ⟨us, hus, hi⟩

theorem inWM_accfold_mono (uid : String) (accs : List (String × AccInfo))
    (m : List (String × List String)) (k i : String) (h : inWM m k i) :
    inWM (accs.foldl (fun m2 p => insertWatch m2 p.1 uid) m) k i := by
  exact foldl_invariant (fun m2 => inWM m2 k i) _
    (fun m2 p hp => inWM_insertWatch_mono m2 p.1 uid k i hp) accs m h

theorem inWM_accfold_self (uid uname : String) (acc : AccInfo) :
    ∀ (accs : List (String × AccInfo)) (m : List (String × List String)),
      (uname, acc) ∈ accs →
      inWM (accs.foldl (fun m2 p => insertWatch m2 p.1 uid) m) uname uid := by
  intro accs
  induction accs with
  | nil => intro m h; simp at h
  | cons p t ih =>
    intro m h
    rcases List.mem_cons.mp h with h1 | h1
    · subst h1
      exact inWM_accfold_mono uid t _ uname uid (inWM_insertWatch_self m uname uid)
    · exact ih _ h1

theorem inWM_accfold_cases (uid : String) :
    ∀ (accs : List (String × AccInfo)) (m : List (String × List String)) (k i : String),
      inWM (accs.foldl (fun m2 p => insertWatch m2 p.1 uid) m) k i →
      inWM m k i ∨ (i = uid ∧ ∃ a, (k, a) ∈ accs) := by
  intro accs
  induction accs with
  | nil => intro m k i h; exact Or.inl h
  | cons p t ih =>
    intro m k i h
    rcases ih (insertWatch m p.1 uid) k i h with h1 | h1
    · rcases inWM_insertWatch_cases m p.1 uid k i h1 with h2 | h2
      · exact Or.inl h2
      · refine Or.inr ⟨h2.2, p.2, ?_⟩
        rw [h2.1]
        exact List.mem_cons_self _ _
    · exact Or.inr ⟨h1.1, h1.2.choose, List.mem_cons_of_mem _ h1.2.choose_spec⟩

theorem inWM_build_mono (data : Store) (m : List (String × List String)) (k i : String)
    (h : inWM m k i) :
    inWM (data.foldl (fun m2 p => addUserWatches m2 p.1 p.2) m) k i := by
  exact foldl_invariant (fun m2 => inWM m2 k i) _
    (fun m2 p hp => inWM_accfold_mono p.1 p.2.accounts m2 k i hp) data m h

theorem inWM_build_of_watch (uid uname : String) (u : UserObj) (acc : AccInfo) :
    ∀ (data : Store) (m : List (String × List String)),
      (uid, u) ∈ data → (uname, acc) ∈ u.accounts →
      inWM (data.foldl (fun m2 p => addUserWatches m2 p.1 p.2) m) uname uid := by
  intro data
  induction data with
  | nil => intro m h; simp at h
  | cons p t ih =>
    intro m hm hacc
    rcases List.mem_cons.mp hm with h1 | h1
    · subst h1
      exact inWM_build_mono t _ uname uid (inWM_accfold_self uid uname acc u.accounts m hacc)
    · exact ih _ h1 hacc

theorem inWM_build_cases :
    ∀ (data : Store) (m : List (String × List String)) (k i : String),
      inWM (data.foldl (fun m2 p => addUserWatches m2 p.1 p.2) m) k i →
      inWM m k i ∨ ∃ u, (i, u) ∈ data ∧ (alookup u.accounts k).isSome := by
  intro data
  induction data with
  | nil => intro m k i h; exact Or.inl h
  | cons p t ih =>
    intro m k i h
    rcases ih (addUserWatches m p.1 p.2) k i h with h1 | h1
    · rcases inWM_accfold_cases p.1 p.2.accounts m k i h1 with h2 | h2
      · exact Or.inl h2
      · obtain ⟨hi, a, ha⟩ := h2
        refine Or.inr ⟨p.2, ?_, isSome_alookup_of_mem _ _ _ ha⟩
        rw [hi, Prod.mk.eta]
        exact List.mem_cons_self p t
    · obtain ⟨u, hu, ha⟩ := h1
      exact Or.inr ⟨u, List.mem_cons_of_mem _ hu, ha⟩

theorem nodup_keys_build (data : Store) :
    ((build_watch_map data).map Prod.fst).Nodup := by
  unfold build_watch_map
  refine foldl_invariant (fun m => (m.map Prod.fst).Nodup)
    (fun m p => addUserWatches m p.1 p.2) (fun m p hp => ?_) data [] (by simp)
  unfold addUserWatches
  exact foldl_invariant (fun m2 => (m2.map Prod.fst).Nodup)
    (fun m2 q => insertWatch m2 q.1 p.1)
    (fun m2 q hq => nodup_keys_insertWatch m2 q.1 p.1 hq) p.2.accounts m hp

theorem insertWatch_entries_nonempty (uname uid : String) :
    ∀ (m : List (String × List String)), (∀ p ∈ m, p.2 ≠ []) →
      ∀ p ∈ insertWatch m uname uid, p.2 ≠ [] := by
  intro m
  induction m with
  | nil =>
    intro _ p hp
    rcases List.mem_singleton.mp (by simpa [insertWatch] using hp) with rfl
    simp
  | cons e t iht =>
    obtain ⟨k, us⟩ := e
    intro hr p hp
    by_cases h : k = uname
    · rcases List.mem_cons.mp (by simpa [insertWatch, h] using hp) with h1 | h1
      · rw [h1]; simp
      · exact hr _ (List.mem_cons_of_mem _ h1)
    · rcases List.mem_cons.mp (by simpa [insertWatch, h] using hp) with h1 | h1
      · rw [h1]; exact hr (k, us) (List.mem_cons_self _ _)
      · exact iht (fun q hq => hr q (List.mem_cons_of_mem _ hq)) p h1

theorem build_entries_nonempty (data : Store) :
    ∀ p ∈ build_watch_map data, p.2 ≠ [] := by
  unfold build_watch_map
  refine foldl_invariant (fun m => ∀ p ∈ m, p.2 ≠ [])
    (fun m q => addUserWatches m q.1 q.2) (fun m q hq => ?_) data [] (by simp)
  unfold addUserWatches
  exact foldl_invariant (fun m2 => ∀ p ∈ m2, p.2 ≠ [])
    (fun m2 r => insertWatch m2 r.1 q.1)
    (fun m2 r hr => insertWatch_entries_nonempty r.1 q.1 m2 hr) q.2.accounts m hq

theorem WMok_build (data : Store) (hnd : (data.map Prod.fst).Nodup) :
    WMok data (build_watch_map data) := by
  intro p hp uid hu
  obtain ⟨k, us⟩ := p
  have hin : inWM (build_watch_map data) k uid :=
    ⟨us, alookup_of_mem_nodup (build_watch_map data) k us (nodup_keys_build data) hp, hu⟩
  rcases inWM_build_cases data [] k uid hin with h1 | h1
  · obtain ⟨us2, hus, _⟩ := h1
    simp at hus
  · obtain ⟨u, hu2, ha⟩ := h1
    exact ⟨u, alookup_of_mem_nodup data uid u hnd hu2, ha⟩

theorem run_entries_bounded (fetch : String → Option (String × String))
    (send : String → String → Bool) :
    ∀ (es : List (String × List String)) (st : CycleState),
      bounded st.store → WMok st.store es →
      bounded (run_entries fetch send es st).store := by
  intro es
  induction es with
  | nil => intro st hb _; exact hb
  | cons e t ih =>
    intro st hb hok
    obtain ⟨k, us⟩ := e
    rw [run_entries_cons]
    cases hx : fetch (k, us).1 with
    | none =>
      rw [process_entry_fetch_none fetch send st (k, us) hx]
      exact ih _ hb (fun q hq u2 hu2 => hok q (List.mem_cons_of_mem _ hq) u2 hu2)
    | some p =>
      obtain ⟨lid, lt⟩ := p
      rw [process_entry_fetch_some fetch send st (k, us) lid lt hx]
      refine ih _ ?_ ?_
      · exact target_fold_bounded send k lid lt us (st.store, []) hb
          (fun u hu => hok (k, us) (List.mem_cons_self _ _) u hu)
      · intro q hq u2 hu2
        exact target_fold_mono send k lid lt u2 q.1 us (st.store, [])
          (hok q (List.mem_cons_of_mem _ hq) u2 hu2)

/-! Lemmas about the handlers. -/

theorem ensure_user_of_mem (data : Store) (uid : String) (u : UserObj)
    (h : alookup data uid = some u) : ensure_user data uid = (data, u) := by
  unfold ensure_user
  rw [h]

theorem ensure_user_fst_eq (data : Store) (uid : String) :
    (ensure_user data uid).1 = ensure_entry data uid := by
  unfold ensure_user ensure_entry
  cases alookup data uid <;> rfl

theorem alookup_ensure_user_self (data : Store) (uid : String) :
    alookup (ensure_user data uid).1 uid = some (ensure_user data uid).2 := by
  unfold ensure_user
  cases hx : alookup data uid with
  | some u => exact hx
  | none =>
    rw [alookup_append_right _ _ _ hx]
    simp [alookup]

theorem length_aupdate_of_none {α : Type} (l : List (String × α)) (k : String) (v : α)
    (h : alookup l k = none) : (aupdate l k v).length = l.length + 1 := by
  have h1 : ((aupdate l k v).map Prod.fst).length = (l.map Prod.fst ++ [k]).length := by
    rw [keys_aupdate_of_none l k v h]
  simpa using h1

theorem length_aremove_le {α : Type} (l : List (String × α)) (k : String) :
    (aremove l k).length ≤ l.length := by
  induction l with
  | nil => simp [aremove]
  | cons p t ih =>
    obtain ⟨k2, v2⟩ := p
    by_cases h : k2 = k
    · simp [aremove, h]
    · simp only [aremove, if_neg h, List.length_cons]
      omega

theorem handle_text_add_at_capacity (data : Store) (uid text : String) (u : UserObj)
    (hu : alookup data uid = some u) (hlen : MAX_ACCOUNTS ≤ u.accounts.length) :
    handle_text_add data uid text = (data, msg_limit) := by
  unfold handle_text_add
  rw [ensure_user_of_mem data uid u hu]
  simp [hlen]

theorem bounded_handle_text_add (data : Store) (uid text : String) (hb : bounded data) :
    bounded (handle_text_add data uid text).1 := by
  have hb1 : bounded (ensure_user data uid).1 := by
    rw [ensure_user_fst_eq]; exact bounded_ensure_entry data uid hb
  unfold handle_text_add
  by_cases h1 : MAX_ACCOUNTS ≤ (ensure_user data uid).2.accounts.length
  · simpa [h1] using hb1
  · by_cases h2 : cleanUsername text = ""
    · simpa [h1, h2] using hb
    · by_cases h3 : (alookup (ensure_user data uid).2.accounts (cleanUsername text)).isSome
      · simpa [h1, h2, h3] using hb
      · rw [if_neg h1, if_neg h2, if_neg h3]
        intro uid2 u2 hu2
        simp only at hu2
        by_cases he : uid2 = uid
        · subst he
          rw [alookup_aupdate_self] at hu2
          cases hu2
          simp only
          rw [length_aupdate_of_none _ _ _
            (Option.not_isSome_iff_eq_none.mp h3)]
          have h4 : (ensure_user data uid2).2.accounts.length < MAX_ACCOUNTS :=
            Nat.lt_of_not_le h1
          omega
        · rw [alookup_aupdate_ne _ _ _ _ he] at hu2
          exact hb1 uid2 u2 hu2

theorem bounded_start_handler (data : Store) (uid : String) (hb : bounded data) :
    bounded (start_handler data uid) := by
  unfold start_handler
  rw [ensure_user_fst_eq]
  exact bounded_ensure_entry data uid hb

theorem bounded_callback_remove (data : Store) (uid acc : String) (hb : bounded data) :
    bounded (callback_remove_handler data uid acc).1 := by
  have hb1 : bounded (ensure_user data uid).1 := by
    rw [ensure_user_fst_eq]; exact bounded_ensure_entry data uid hb
  unfold callback_remove_handler
  cases hx : alookup (ensure_user data uid).2.accounts acc with
  | none => exact hb
  | some a =>
    intro uid2 u2 hu2
    simp only at hu2
    by_cases he : uid2 = uid
    · subst he
      rw [alookup_aupdate_self] at hu2
      cases hu2
      simp only
      calc (aremove (ensure_user data uid2).2.accounts acc).length
          ≤ (ensure_user data uid2).2.accounts.length := length_aremove_le _ _
        _ ≤ MAX_ACCOUNTS := hb1 uid2 _ (alookup_ensure_user_self data uid2)
    · rw [alookup_aupdate_ne _ _ _ _ he] at hu2
      exact hb1 uid2 u2 hu2

theorem bounded_tracker_cycle (fetch : String → Option (String × String))
    (send : String → String → Bool) (data : Store) (hb : bounded data)
    (hnd : (data.map Prod.fst).Nodup) :
    bounded (tracker_cycle fetch send data).store := by
  unfold tracker_cycle
  exact run_entries_bounded fetch send (build_watch_map data) ⟨data, [], []⟩ hb
    (WMok_build data hnd)

theorem mem_keys_of_alookup {α : Type} (l : List (String × α)) (k : String) (v : α)
    (h : alookup l k = some v) : k ∈ l.map Prod.fst :=
  List.mem_map.mpr ⟨(k, v), mem_of_alookup l k v h, rfl⟩

/-- Every target fetched in a cycle is exactly the key set of the watch map;
forward and backward correspondence with the store. -/
theorem fetched_iff_watched (fetch : String → Option (String × String))
    (send : String → String → Bool) (data : Store)
    (hnd : (data.map Prod.fst).Nodup) (t : String) :
    t ∈ (tracker_cycle fetch send data).fetched ↔ ∃ uid, hasWatchKey data uid t := by
  unfold tracker_cycle
  rw [run_entries_fetched]
  simp only [List.nil_append]
  constructor
  · intro h
    obtain ⟨p, hp, hpt⟩ := List.mem_map.mp h
    obtain ⟨k, us⟩ := p
    simp only at hpt
    subst hpt
    have hne := build_entries_nonempty data (k, us) hp
    obtain ⟨uid, huid⟩ := List.exists_mem_of_ne_nil us hne
    have hin : inWM (build_watch_map data) k uid :=
      ⟨us, alookup_of_mem_nodup _ _ _ (nodup_keys_build data) hp, huid⟩
    rcases inWM_build_cases data [] k uid hin with h1 | h1
    · obtain ⟨us2, hus, _⟩ := h1
      simp at hus
    · obtain ⟨u, hu, ha⟩ := h1
      exact ⟨uid, u, alookup_of_mem_nodup data uid u hnd hu, ha⟩
  · intro h
    obtain ⟨uid, u, hu, ha⟩ := h
    obtain ⟨acc, hacc⟩ := Option.isSome_iff_exists.mp ha
    have hin : inWM (build_watch_map data) t uid := by
      have := inWM_build_of_watch uid t u acc data []
        (mem_of_alookup data uid u hu) (mem_of_alookup u.accounts t acc hacc)
      exact this
    obtain ⟨us, hus, _⟩ := hin
    exact mem_keys_of_alookup _ _ _ hus

/-! Core cycle lemmas shared by the claim theorems. -/

theorem cycle_notify_core (fetch : String → Option (String × String))
    (send : String → String → Bool) (data : Store) (uid uname lid lt : String)
    (u : UserObj) (acc : AccInfo)
    (hu : alookup data uid = some u) (hacc : alookup u.accounts uname = some acc)
    (hf : fetch uname = some (lid, lt)) (hne : acc.last_tweet_id ≠ some lid) :
    notifCount (tracker_cycle fetch send data).notifs uid uname = 1 ∧
      storedCursor (tracker_cycle fetch send data).store uid uname = some lid := by
  have hcur : storedCursor data uid uname = acc.last_tweet_id := by
    simp only [storedCursor, hu, hacc]
  have hin : inWM (build_watch_map data) uname uid :=
    inWM_build_of_watch uid uname u acc data []
      (mem_of_alookup _ _ _ hu) (mem_of_alookup _ _ _ hacc)
  obtain ⟨us, hus, huid⟩ := hin
  have hmem : (uname, us) ∈ build_watch_map data := mem_of_alookup _ _ _ hus
  have hmain := run_entries_notify fetch send uname lid lt uid us hf
    (build_watch_map data) ⟨data, [], []⟩ (nodup_keys_build data) hmem huid
    (by show storedCursor data uid uname ≠ some lid; rw [hcur]; exact hne)
  unfold tracker_cycle
  refine ⟨?_, hmain.1⟩
  rw [hmain.2]
  rfl

theorem cycle_skip_equal_core (fetch : String → Option (String × String))
    (send : String → String → Bool) (data : Store) (uid uname lid lt : String)
    (u : UserObj) (acc : AccInfo)
    (hu : alookup data uid = some u) (hacc : alookup u.accounts uname = some acc)
    (hf : fetch uname = some (lid, lt)) (heq : acc.last_tweet_id = some lid) :
    notifCount (tracker_cycle fetch send data).notifs uid uname = 0 ∧
      storedCursor (tracker_cycle fetch send data).store uid uname =
        storedCursor data uid uname := by
  have hcur : storedCursor data uid uname = some lid := by
    simp only [storedCursor, hu, hacc, heq]
  have hmain := run_entries_hit fetch send uname lid lt uid hf
    (build_watch_map data) ⟨data, [], []⟩ hcur
  unfold tracker_cycle
  exact ⟨hmain.2, by rw [hmain.1, hcur]⟩

/-- C2: if the fetched post id differs from the stored cursor of a
subscriber watching that target, the cycle attempts exactly one
notification to that subscriber for that target and leaves the stored
cursor equal to the fetched id — for every delivery outcome `send`, so in
particular when delivery fails. -/
theorem C2_changed_id_notifies_once_and_advances
    (fetch : String → Option (String × String)) (send : String → String → Bool)
    (data : Store) (uid uname lid lt : String) (u : UserObj) (acc : AccInfo)
    (hu : alookup data uid = some u) (hacc : alookup u.accounts uname = some acc)
    (hf : fetch uname = some (lid, lt)) (hne : acc.last_tweet_id ≠ some lid) :
    notifCount (tracker_cycle fetch send data).notifs uid uname = 1 ∧
      storedCursor (tracker_cycle fetch send data).store uid uname = some lid :=
  cycle_notify_core fetch send data uid uname lid lt u acc hu hacc hf hne

/-- C2 witness: subscriber 42 watches alice at cursor 100; the fetch
returns 101 and every delivery fails; still exactly one attempt and the
cursor advances to 101. -/
theorem C2_witness :
    notifCount (tracker_cycle fetch_next send_false cursor_store).notifs "42" "alice" = 1 ∧
      storedCursor (tracker_cycle fetch_next send_false cursor_store).store "42" "alice" =
        some "101" :=
  C2_changed_id_notifies_once_and_advances fetch_next send_false cursor_store
    "42" "alice" "101" "bye"
    { accounts := [("alice", { last_tweet_id := some "100" })], meta := [] }
    { last_tweet_id := some "100" } (by rfl) (by rfl) (by rfl) (by decide)

/-- C1: the seeding rule fails on the code.  For a fresh watch (stored
cursor `none`) whose first fetch succeeds, the tracker compares
`last_id != latest_id`, which is true for `None`, so it attempts a
notification while seeding the cursor; the spec — and the comment at the
insertion site in `handle_text` (add with `last_tweet_id = None` so the
tracker will fetch *but not notify*) — demand zero notifications here. -/
theorem C1_seeding_sends_a_notification :
    notifCount (tracker_cycle fetch_seed send_true seed_store).notifs "42" "alice" = 1 ∧
      storedCursor (tracker_cycle fetch_seed send_true seed_store).store "42" "alice" =
        some "100" := by
  constructor <;> rfl

/-- C6: if the fetched id equals the stored cursor of a watching
subscriber, the cycle attempts no notification to them for that target and
the stored cursor of that watch is unchanged. -/
theorem C6_equal_id_no_action
    (fetch : String → Option (String × String)) (send : String → String → Bool)
    (data : Store) (uid uname lid lt : String) (u : UserObj) (acc : AccInfo)
    (hu : alookup data uid = some u) (hacc : alookup u.accounts uname = some acc)
    (hf : fetch uname = some (lid, lt)) (heq : acc.last_tweet_id = some lid) :
    notifCount (tracker_cycle fetch send data).notifs uid uname = 0 ∧
      storedCursor (tracker_cycle fetch send data).store uid uname =
        storedCursor data uid uname :=
  cycle_skip_equal_core fetch send data uid uname lid lt u acc hu hacc hf heq

/-- C6 witness: cursor already 100 and the fetch returns 100 again: no
notification, cursor untouched. -/
theorem C6_witness :
    notifCount (tracker_cycle fetch_seed send_true cursor_store).notifs "42" "alice" = 0 ∧
      storedCursor (tracker_cycle fetch_seed send_true cursor_store).store "42" "alice" =
        storedCursor cursor_store "42" "alice" :=
  C6_equal_id_no_action fetch_seed send_true cursor_store "42" "alice" "100" "hi"
    { accounts := [("alice", { last_tweet_id := some "100" })], meta := [] }
    { last_tweet_id := some "100" } (by rfl) (by rfl) (by rfl) (by rfl)

/-- C4: fetch failure isolation.  If the fetch for target A returns `none`
while the fetch for target B succeeds with an id differing from the stored
cursor of a subscriber watching B, then in that same cycle no cursor of
any watch of A changes and no notification about A is attempted, while the
B subscriber still gets exactly one notification and the B cursor
advances. -/
theorem C4_failure_isolation
    (fetch : String → Option (String × String)) (send : String → String → Bool)
    (data : Store) (tA uid tB lid lt : String) (u : UserObj) (acc : AccInfo)
    (hfa : fetch tA = none)
    (hu : alookup data uid = some u) (hacc : alookup u.accounts tB = some acc)
    (hfb : fetch tB = some (lid, lt)) (hne : acc.last_tweet_id ≠ some lid) :
    (∀ uid2, storedCursor (tracker_cycle fetch send data).store uid2 tA =
        storedCursor data uid2 tA ∧
      notifCount (tracker_cycle fetch send data).notifs uid2 tA = 0) ∧
      notifCount (tracker_cycle fetch send data).notifs uid tB = 1 ∧
      storedCursor (tracker_cycle fetch send data).store uid tB = some lid := by
  constructor
  · intro uid2
    have hmain := run_entries_unavailable fetch send tA hfa
      (build_watch_map data) ⟨data, [], []⟩ uid2
    unfold tracker_cycle
    exact ⟨hmain.1, by rw [hmain.2]; rfl⟩
  · exact cycle_notify_core fetch send data uid tB lid lt u acc hu hacc hfb hne

/-- C4 witness: one subscriber watches both alice and bob; alice is
unavailable this cycle, bob moves from 7 to 8: the alice watch is frozen
with no notification, the bob watch notifies once and advances. -/
theorem C4_witness :
    (∀ uid2, storedCursor (tracker_cycle fetch_iso send_true iso_store).store uid2 "alice" =
        storedCursor iso_store uid2 "alice" ∧
      notifCount (tracker_cycle fetch_iso send_true iso_store).notifs uid2 "alice" = 0) ∧
      notifCount (tracker_cycle fetch_iso send_true iso_store).notifs "42" "bob" = 1 ∧
      storedCursor (tracker_cycle fetch_iso send_true iso_store).store "42" "bob" =
        some "8" :=
  C4_failure_isolation fetch_iso send_true iso_store "alice" "42" "bob" "8" "hey"
    { accounts := [("alice", { last_tweet_id := some "100" }),
                   ("bob", { last_tweet_id := some "7" })], meta := [] }
    { last_tweet_id := some "7" } (by rfl) (by rfl) (by rfl) (by rfl) (by decide)

/-- C5: in every cycle each distinct watched target is passed to the
fetcher exactly once: the fetch trace is duplicate-free, it contains
exactly the targets some subscriber watches, and each of those appears
exactly once, however many subscribers watch it. -/
theorem C5_each_watched_target_fetched_once
    (fetch : String → Option (String × String)) (send : String → String → Bool)
    (data : Store) (hnd : (data.map Prod.fst).Nodup) :
    (tracker_cycle fetch send data).fetched.Nodup ∧
      (∀ t, t ∈ (tracker_cycle fetch send data).fetched ↔
        ∃ uid, hasWatchKey data uid t) ∧
      (∀ t, (∃ uid, hasWatchKey data uid t) →
        (tracker_cycle fetch send data).fetched.count t = 1) := by
  have hfs : (tracker_cycle fetch send data).fetched =
      (build_watch_map data).map Prod.fst := by
    unfold tracker_cycle
    rw [run_entries_fetched]
    rfl
  refine ⟨by rw [hfs]; exact nodup_keys_build data,
    fun t => fetched_iff_watched fetch send data hnd t, fun t ht => ?_⟩
  have hmem := (fetched_iff_watched fetch send data hnd t).mpr ht
  exact List.count_eq_one_of_mem (by rw [hfs] at hmem ⊢; exact nodup_keys_build data) hmem

/-- C5 witness: a store with one subscriber watching two targets; the
fetch trace is exactly those two targets once each. -/
theorem C5_witness :
    (tracker_cycle fetch_iso send_true iso_store).fetched.Nodup ∧
      (∀ t, t ∈ (tracker_cycle fetch_iso send_true iso_store).fetched ↔
        ∃ uid, hasWatchKey iso_store uid t) ∧
      (∀ t, (∃ uid, hasWatchKey iso_store uid t) →
        (tracker_cycle fetch_iso send_true iso_store).fetched.count t = 1) :=
  C5_each_watched_target_fetched_once fetch_iso send_true iso_store (by decide)

/-- C3: the watch limit.  A subscriber already holding `MAX_ACCOUNTS = 5`
watches has any further add rejected with a user-visible message and an
unchanged store, both at the `/add` command and at the `handle_text` add
flow; and every operation of the program — add flow, `/start`, remove,
and a tracker cycle — preserves the invariant that every subscriber holds
at most 5 watches. -/
theorem C3_watch_limit (data : Store) (uid text : String) (u : UserObj)
    (hu : alookup data uid = some u) (hfull : MAX_ACCOUNTS ≤ u.accounts.length) :
    (handle_text_add data uid text = (data, msg_limit) ∧
      add_command data uid = (data, msg_max_accounts, false)) ∧
      (∀ d uid2 text2, bounded d → bounded (handle_text_add d uid2 text2).1) ∧
      (∀ d uid2, bounded d → bounded (start_handler d uid2)) ∧
      (∀ d uid2 acc, bounded d → bounded (callback_remove_handler d uid2 acc).1) ∧
      (∀ (fetch : String → Option (String × String)) (send : String → String → Bool) d,
        bounded d → (List.map Prod.fst d).Nodup →
        bounded (tracker_cycle fetch send d).store) := by
  refine ⟨⟨handle_text_add_at_capacity data uid text u hu hfull, ?_⟩,
    fun d uid2 text2 hb => bounded_handle_text_add d uid2 text2 hb,
    fun d uid2 hb => bounded_start_handler d uid2 hb,
    fun d uid2 acc hb => bounded_callback_remove d uid2 acc hb,
    fun fetch send d hb hnd => bounded_tracker_cycle fetch send d hb hnd⟩
  unfold add_command
  rw [ensure_user_of_mem data uid u hu]
  simp [hfull]

/-- C3 witness: a subscriber with five watches; a sixth add is rejected in
both places and the store is unchanged. -/
theorem C3_witness :
    (handle_text_add full_store "7" "zed" = (full_store, msg_limit) ∧
      add_command full_store "7" = (full_store, msg_max_accounts, false)) ∧
      (∀ d uid2 text2, bounded d → bounded (handle_text_add d uid2 text2).1) ∧
      (∀ d uid2, bounded d → bounded (start_handler d uid2)) ∧
      (∀ d uid2 acc, bounded d → bounded (callback_remove_handler d uid2 acc).1) ∧
      (∀ (fetch : String → Option (String × String)) (send : String → String → Bool) d,
        bounded d → (List.map Prod.fst d).Nodup →
        bounded (tracker_cycle fetch send d).store) :=
  C3_watch_limit full_store "7" "zed"
    { accounts := [("a", { last_tweet_id := some "1" }),
                   ("b", { last_tweet_id := none }),
                   ("c", { last_tweet_id := none }),
                   ("d", { last_tweet_id := none }),
                   ("alice", { last_tweet_id := some "5" })], meta := [] }
    (by rfl) (by decide)

/-- C7: `load_data` fails soft: a missing backing file and a corrupt
backing file both yield the empty mapping; being a total function of the
modelled file state, it never raises. -/
theorem C7_load_data_fails_soft :
    load_data FileState.absent = [] ∧ ∀ raw, load_data (FileState.corrupt raw) = [] :=
  ⟨rfl, fun _ => rfl⟩

/-- C8 counterexample: the claim fixes the rejection message as the
already-in-your-list reply, but when the subscriber is at the watch cap
the duplicate add of a watched target is rejected by the earlier capacity
check with the limit message instead (the store is still unchanged). -/
theorem C8_counterexample :
    (alookup ((alookup full_store "7").getD emptyUser).accounts "alice").isSome ∧
      handle_text_add full_store "7" "alice" = (full_store, msg_limit) ∧
      msg_limit ≠ msg_already "alice" := by
  refine ⟨by rfl, by rfl, by decide⟩

/-- C8 amended: a second add of an already-watched target never changes
the store — the existing cursor for it is preserved, so adding twice
equals adding once — and is rejected with the already-in-your-list
message when the subscriber is under the cap, with the limit message when
at the cap. -/
theorem C8_duplicate_add_rejected (data : Store) (uid text : String)
    (u : UserObj) (acc : AccInfo)
    (hu : alookup data uid = some u) (hne : cleanUsername text ≠ "")
    (hacc : alookup u.accounts (cleanUsername text) = some acc) :
    (handle_text_add data uid text).1 = data ∧
      (handle_text_add data uid text).2 =
        (if MAX_ACCOUNTS ≤ u.accounts.length then msg_limit
          else msg_already (cleanUsername text)) ∧
      storedCursor (handle_text_add data uid text).1 uid (cleanUsername text) =
        acc.last_tweet_id := by
  have hcur : storedCursor data uid (cleanUsername text) = acc.last_tweet_id := by
    simp only [storedCursor, hu, hacc]
  have hmain : handle_text_add data uid text =
      (data, if MAX_ACCOUNTS ≤ u.accounts.length then msg_limit
        else msg_already (cleanUsername text)) := by
    unfold handle_text_add
    rw [ensure_user_of_mem data uid u hu]
    by_cases h1 : MAX_ACCOUNTS ≤ u.accounts.length
    · simp [h1]
    · simp [h1, hne, hacc]
  rw [hmain]
  exact ⟨rfl, rfl, hcur⟩

/-- C8 witness: under the cap, re-adding a watched target replies
already-in-your-list and preserves the store and cursor. -/
theorem C8_witness :
    (handle_text_add cursor_store "42" "alice").1 = cursor_store ∧
      (handle_text_add cursor_store "42" "alice").2 =
        (if MAX_ACCOUNTS ≤ ([("alice",
            ({ last_tweet_id := some "100" } : AccInfo))] : List (String × AccInfo)).length
          then msg_limit else msg_already (cleanUsername "alice")) ∧
      storedCursor (handle_text_add cursor_store "42" "alice").1 "42"
          (cleanUsername "alice") =
        some "100" :=
  C8_duplicate_add_rejected cursor_store "42" "alice"
    { accounts := [("alice", { last_tweet_id := some "100" })], meta := [] }
    { last_tweet_id := some "100" } (by rfl) (by decide) (by rfl)

/-- C9: every notification attempted by a cycle carries a message that
contains the canonical permalink built from its target and fetched post
id, and contains the target identifier. -/
theorem C9_message_contains_permalink
    (fetch : String → Option (String × String)) (send : String → String → Bool)
    (data : Store) (n : Notif)
    (h : n ∈ (tracker_cycle fetch send data).notifs) :
    (∃ pre post, n.msg = pre ++ tweet_link n.username n.tweet_id ++ post) ∧
      ∃ pre2 post2, n.msg = pre2 ++ n.username ++ post2 := by
  rcases run_entries_mem fetch send (build_watch_map data) ⟨data, [], []⟩ n h with h1 | h1
  · simp at h1
  · obtain ⟨lt2, hmsg⟩ := h1
    constructor
    · refine ⟨"New Tweet by @" ++ n.username ++ ":\n\n" ++
        (if lt2 = "" then tweet_link n.username n.tweet_id else lt2) ++ "\n\n", "", ?_⟩
      rw [hmsg, String.append_empty]
      rfl
    · refine ⟨"New Tweet by @", ":\n\n" ++
        (if lt2 = "" then tweet_link n.username n.tweet_id else lt2) ++ "\n\n" ++
        tweet_link n.username n.tweet_id, ?_⟩
      rw [hmsg]
      simp [notif_text, String.append_assoc]

/-- C9 witness: the notification of the concrete changed-cursor cycle
contains the alice/101 permalink and the target name. -/
theorem C9_witness :
    (∃ pre post,
        (Notif.mk "42" "alice" "101" (notif_text "alice" "101" "bye") false).msg =
          pre ++ tweet_link "alice" "101" ++ post) ∧
      ∃ pre2 post2,
        (Notif.mk "42" "alice" "101" (notif_text "alice" "101" "bye") false).msg =
          pre2 ++ "alice" ++ post2 :=
  C9_message_contains_permalink fetch_next send_false cursor_store
    (Notif.mk "42" "alice" "101" (notif_text "alice" "101" "bye") false) (by decide)

/-- C10: `ensure_user` on an existing subscriber returns the store and the
existing record unchanged; consequently `/start` preserves the record of
every existing subscriber, and `/list` and `/stats` never persist any
change at all. -/
theorem C10_readonly_commands (data : Store) (uid : String) (u : UserObj)
    (hu : alookup data uid = some u) :
    ensure_user data uid = (data, u) ∧
      (∀ caller uid2 u2, alookup data uid2 = some u2 →
        alookup (start_handler data caller) uid2 = some u2) ∧
      (∀ caller, (list_accounts_handler data caller).1 = data) ∧
      (stats_handler data).1 = data := by
  refine ⟨ensure_user_of_mem data uid u hu, ?_, fun caller => rfl, rfl⟩
  intro caller uid2 u2 h2
  unfold start_handler
  rw [ensure_user_fst_eq]
  exact alookup_ensure_entry_of_some data caller uid2 u2 h2

/-- C10 witness: on a concrete store, `ensure_user` for the existing
subscriber is the identity and the read-only commands leave it intact. -/
theorem C10_witness :
    ensure_user cursor_store "42" =
        (cursor_store,
          { accounts := [("alice", { last_tweet_id := some "100" })], meta := [] }) ∧
      (∀ caller uid2 u2, alookup cursor_store uid2 = some u2 →
        alookup (start_handler cursor_store caller) uid2 = some u2) ∧
      (∀ caller, (list_accounts_handler cursor_store caller).1 = cursor_store) ∧
      (stats_handler cursor_store).1 = cursor_store :=
  C10_readonly_commands cursor_store "42"
    { accounts := [("alice", { last_tweet_id := some "100" })], meta := [] } (by rfl)

end XNotifyBot

